import Mathlib

/-!
Verification of the Ogg/Opus container writer (OggWriter in ogg-writer.js)
and the raw-dump serialized packet writer (demo.js) of this repository.

Bytes are modelled as natural numbers below 256 inside `List Nat`.
JavaScript numbers holding integer counters are modelled as `Nat`
(with the int32 coercion of the `&` operator made explicit where the
source uses it); the fractional sample arithmetic of the TOC parser is
modelled over `ℚ`.  Calls to `Buffer.writeUIntNLE` that Node would
reject with a range error are modelled by `Option`: `none` means the
write throws.
-/

namespace OggWriter

/-- Little-endian encoding of a 16-bit value, as written by
`Buffer.writeUInt16LE` for an in-range argument. -/
def u16LE (v : Nat) : List Nat := [v % 256, v / 256 % 256]

/-- Little-endian encoding of a 32-bit value, as written by
`Buffer.writeUInt32LE` for an in-range argument. -/
def u32LE (v : Nat) : List Nat :=
  [v % 256, v / 256 % 256, v / 65536 % 256, v / 16777216 % 256]

/-- Little-endian two-complement encoding of a signed 16-bit value, as
written by `Buffer.writeInt16LE` for an in-range argument. -/
def i16LE (v : Int) : List Nat := u16LE (v % 65536).toNat

/-- Reads a little-endian byte list back as a natural number. -/
def leToNat (l : List Nat) : Nat := l.foldr (fun b acc => b + 256 * acc) 0

/-- JavaScript ToInt32 of a non-negative number: the value modulo 2^32,
reinterpreted as a signed 32-bit integer.  This is what the expression
`granulePos & 0xFFFFFFFF` computes in the source. -/
def toInt32 (x : Nat) : Int :=
  let m := x % 4294967296
  if m < 2147483648 then (m : Int) else (m : Int) - 4294967296

/-! ### Segment table (lacing) construction, from the loop in `writeOggPage`:
`while (remaining > 0) { segmentSize = min(remaining, 255); push; remaining -= segmentSize }`.
The loop is translated with a fuel argument; one unit of fuel per
iteration suffices because every iteration removes at least one byte. -/

def segLoop : Nat → Nat → List Nat
  | _, 0 => []
  | 0, _ + 1 => []
  | fuel + 1, r + 1 =>
      min (r + 1) 255 :: segLoop fuel (r + 1 - min (r + 1) 255)

/-- Segment table of `writeOggPage` for a packet of length `n`:
a single zero lacing value for the empty packet, otherwise the
greedy split into segments of at most 255 bytes. -/
def computeSegments (n : Nat) : List Nat :=
  if n = 0 then [0] else segLoop n n

/-- The payload bytes written by the final loop of `writeOggPage`:
for each segment size `s` the slice
`packet.slice(packetOffset, packetOffset + s)` is written and the
offset advances by `s`. -/
def slicesConcat (packet : List Nat) : List Nat → Nat → List Nat
  | [], _ => []
  | s :: rest, off =>
      ((packet.drop off).take s) ++ slicesConcat packet rest (off + s)

/-! ### CRC engine (`getCRC32Table` / `calculateOggChecksum`). -/

/-- The Ogg CRC polynomial 0x04C11DB7. -/
def crcPolynomial : Nat := 0x04C11DB7

/-- One inner round of the table builder: shift right one bit and XOR
with the polynomial when the low bit was set. -/
def crcStep (c : Nat) : Nat :=
  if c % 2 = 1 then (c / 2) ^^^ crcPolynomial else c / 2

/-- Table entry `i` of `getCRC32Table`: eight rounds of `crcStep`
starting from `i`. -/
def crcTableEntry (i : Nat) : Nat :=
  crcStep (crcStep (crcStep (crcStep (crcStep (crcStep (crcStep (crcStep i)))))))

/-- The 256-entry lookup table built by `getCRC32Table`. -/
def getCRC32Table : List Nat := (List.range 256).map crcTableEntry

/-- One step of the running CRC:
`crc = ((crc >>> 8) ^ table[(crc ^ byte) & 0xFF]) >>> 0`. -/
def crcUpdate (crc b : Nat) : Nat :=
  (crc / 256) ^^^ getCRC32Table.getD ((crc ^^^ b) % 256) 0

/-- The `updateCRC` closure of `calculateOggChecksum`: feed a byte
sequence into the running CRC. -/
def updateCRC (crc : Nat) (data : List Nat) : Nat := data.foldl crcUpdate crc

/-- The checksum of `calculateOggChecksum`: the running CRC starts at 0
and is fed the header with its checksum field (bytes 22..25) forced to
zero, then the segment table, then the packet payload. -/
def calculateOggChecksum (header segTable packet : List Nat) : Nat :=
  let headerForCRC := header.take 22 ++ u32LE 0 ++ header.drop 26
  updateCRC (updateCRC (updateCRC 0 headerForCRC) segTable) packet

/-! ### Ogg page header and page emission (`writeOggPage`). -/

/-- The 27-byte page header built by `writeOggPage` before the checksum
is patched in: capture pattern "OggS", version 0, header type, granule
position low and high halves (u32 LE each), serial number, page
sequence number, zero checksum, segment count. -/
def oggPageHeaderZero (headerType gpLow gpHigh serial seq nsegs : Nat) : List Nat :=
  [79, 103, 103, 83, 0, headerType] ++ u32LE gpLow ++ u32LE gpHigh ++
    u32LE serial ++ u32LE seq ++ u32LE 0 ++ [nsegs]

/-- Patching the computed checksum into the header at byte offset 22
(`pageHeader.writeUInt32LE(checksum, 22)`). -/
def patchChecksum (header : List Nat) (crc : Nat) : List Nat :=
  header.take 22 ++ u32LE crc ++ header.drop 26

/-- The bytes of one Ogg page as emitted by `writeOggPage`, or `none`
when one of Node range checks on the buffer writes throws.  The source
computes `granulePosLow = granulePos & 0xFFFFFFFF` (a JavaScript int32
coercion) and `granulePosHigh = Math.floor(granulePos / 0x100000000)`,
then hands both to `writeUInt32LE`, which throws for arguments outside
`[0, 0xFFFFFFFF]`; likewise `writeUInt8(segments.length)` throws above
255.  The guards reproduce exactly those checks. -/
def writeOggPage (packet : List Nat) (headerType granulePos serial seq : Nat) :
    Option (List Nat) :=
  let segs := computeSegments packet.length
  let granulePosLow : Int := toInt32 granulePos
  let granulePosHigh : Nat := granulePos / 4294967296
  if 0 ≤ granulePosLow ∧ granulePosHigh ≤ 4294967295 ∧ serial ≤ 4294967295 ∧
      seq ≤ 4294967295 ∧ headerType ≤ 255 ∧ segs.length ≤ 255 then
    let header0 := oggPageHeaderZero headerType granulePosLow.toNat granulePosHigh
      serial seq segs.length
    let crc := calculateOggChecksum header0 segs packet
    some (patchChecksum header0 crc ++ segs ++ slicesConcat packet segs 0)
  else
    none

/-! ### TOC parser (`parseOpusTOC`).  The sample arithmetic of the source
runs on JavaScript numbers; it is modelled over `ℚ`. -/

/-- Result record of `parseOpusTOC`. -/
structure TocInfo where
  config : Nat
  stereo : Bool
  frameCountCode : Nat
  durationMs : Nat
  frameCount : Nat
  samplesPerFrame : ℚ
  samplesPerPacket : ℚ
  deriving Repr, DecidableEq

/-- Translation of `parseOpusTOC(tocByte)`: config is the low two bits,
the stereo flag is bit 2, the frame count code is bits 4..7; the
duration table `[10, 20, 40, 60]` is indexed by `config % 4`; the frame
count follows the if chain of the source; the sample counts follow
`samplesPerFrame = durationMs * sampleRate / 1000` and
`samplesPerPacket = samplesPerFrame * frameCount`. -/
def parseOpusTOC (sampleRate : Nat) (tocByte : Nat) : TocInfo :=
  let config := tocByte &&& 0x03
  let stereo := decide (tocByte &&& 0x04 ≠ 0)
  let frameCountCode := (tocByte >>> 4) &&& 0x0F
  let durationMs : Nat := [10, 20, 40, 60].getD (config % 4) 0
  let frameCount : Nat :=
    if frameCountCode = 0 then 1
    else if frameCountCode = 1 ∨ frameCountCode = 2 then 2
    else if frameCountCode = 3 then 1
    else frameCountCode - 3
  let samplesPerFrame : ℚ := (durationMs : ℚ) * (sampleRate : ℚ) / 1000
  let samplesPerPacket : ℚ := samplesPerFrame * (frameCount : ℚ)
  ⟨config, stereo, frameCountCode, durationMs, frameCount,
    samplesPerFrame, samplesPerPacket⟩

/-! ### Container writer state (`OggWriter` fields mutated by
`writeOpusPacket`).  The page bytes of data pages depend on the file
descriptor only through the emitted byte stream; what `writeOpusPacket`
itself decides is the state update and the granule value stamped on the
page it hands to `writeOggPage`, which is what is modelled here. -/

/-- The mutable counters of an `OggWriter` instance. -/
structure WriterState where
  sampleRate : Nat
  pageSequenceNumber : Nat
  granulePosition : ℚ
  packetsWritten : Nat
  bytesWritten : Nat
  deriving Repr, DecidableEq

/-- Translation of `writeOpusPacket(packet)`: an empty packet is
rejected with a warning and nothing changes; otherwise the TOC byte
(`packet[0]`) is parsed, `samplesPerPacket` is added to
`granulePosition` and `packetsWritten` is incremented BEFORE the page
is emitted, and the page emission (`writeOggPage`) increments
`pageSequenceNumber` and adds the page size
(27 + segment table length + packet length) to `bytesWritten`.  The
second component lists the granule values stamped on the emitted pages
(empty when no page is emitted). -/
def writeOpusPacket (st : WriterState) (packet : List Nat) :
    WriterState × List ℚ :=
  if packet.length = 0 then (st, [])
  else
    let tocInfo := parseOpusTOC st.sampleRate (packet.headD 0)
    let g := st.granulePosition + tocInfo.samplesPerPacket
    let segs := computeSegments packet.length
    let pageSize := 27 + segs.length + packet.length
    ({ st with
        granulePosition := g
        packetsWritten := st.packetsWritten + 1
        pageSequenceNumber := st.pageSequenceNumber + 1
        bytesWritten := st.bytesWritten + pageSize }, [g])

/-- Feeding a sequence of packets to `writeOpusPacket`, collecting the
stamped granule values of all emitted data pages in order. -/
def writePackets (st : WriterState) : List (List Nat) → WriterState × List ℚ
  | [] => (st, [])
  | p :: ps =>
      let r := writeOpusPacket st p
      let rs := writePackets r.1 ps
      (rs.1, r.2 ++ rs.2)

/-! ### Header packets and `init()`. -/

/-- The 19-byte OpusHead identification header of `createOpusHead`:
magic "OpusHead", version 1, channel count, pre-skip u16 LE, input
sample rate u32 LE, output gain i16 LE, channel mapping 0. -/
def createOpusHead (channels preSkip sampleRate : Nat) (outputGain : Int) :
    List Nat :=
  [79, 112, 117, 115, 72, 101, 97, 100] ++ [1] ++ [channels] ++
    u16LE preSkip ++ u32LE sampleRate ++ i16LE outputGain ++ [0]

/-- The OpusTags comment header of `createOpusTags`: magic "OpusTags",
vendor string length u32 LE, vendor string bytes, comment count u32 LE,
then each comment as length u32 LE followed by its bytes.  Strings are
modelled as their UTF-8 byte lists. -/
def createOpusTags (vendorString : List Nat) (comments : List (List Nat)) :
    List Nat :=
  [79, 112, 117, 115, 84, 97, 103, 115] ++ u32LE vendorString.length ++
    vendorString ++ u32LE comments.length ++
    (comments.map (fun c => u32LE c.length ++ c)).flatten

/-- Translation of `init()`: emits the OpusHead packet as a page with
header type 0x02 and granule position 0 at page sequence number 0, then
the OpusTags packet as a page with header type 0x00 and granule
position 0 at page sequence number 1.  Returns the two emitted pages,
or `none` when a page emission throws. -/
def init (channels preSkip sampleRate : Nat) (outputGain : Int)
    (vendorString : List Nat) (comments : List (List Nat)) (serial : Nat) :
    Option (List Nat × List Nat) :=
  match writeOggPage (createOpusHead channels preSkip sampleRate outputGain)
      0x02 0 serial 0,
    writeOggPage (createOpusTags vendorString comments) 0x00 0 serial 1 with
  | some p1, some p2 => some (p1, p2)
  | _, _ => none

end OggWriter

namespace RawDump

open OggWriter (u16LE u32LE leToNat)

/-- The frame buffer assembled by the audio data handler in demo.js for
one accepted packet: `[u16 LE length][payload][u32 LE timestampLow]
[u32 LE timestampHigh]`, with `low = ts & 0xFFFFFFFF` and
`high = ts >> 32` computed over BigInt, concatenated into a single
buffer before it is queued. -/
def buildFrameBuffer (packet : List Nat) (timestamp : Nat) : List Nat :=
  u16LE packet.length ++ packet ++
    u32LE (timestamp % 4294967296) ++ u32LE (timestamp / 4294967296)

/-- The validation and write of one data event in demo.js: packets of
length 0 or above 65535 are skipped with a warning and nothing is
appended; a timestamp whose halves do not fit an u32 is likewise
skipped; otherwise the assembled frame buffer is appended to the
raw-dump file in arrival order (the write queue drains FIFO). -/
def handleFrame (file : List Nat) (packet : List Nat) (timestamp : Nat) :
    List Nat :=
  if packet.length = 0 then file
  else if 65535 < packet.length then file
  else if 4294967295 < timestamp / 4294967296 then file
  else file ++ buildFrameBuffer packet timestamp

/-- The raw-dump file produced by a sequence of (packet, timestamp)
data events, starting from an empty file. -/
def rawDumpFile (pairs : List (List Nat × Nat)) : List Nat :=
  pairs.foldl (fun file pr => handleFrame file pr.1 pr.2) []

/-- Sequential parser of the raw-dump record format, reconstructing the
(packet, timestamp) pairs with `timestamp = low + high * 2^32`.  A
truncated trailing record yields `none`. -/
def parseRawDump (bytes : List Nat) : Option (List (List Nat × Nat)) :=
  if hb : bytes = [] then some []
  else if hlen : bytes.length < 10 then none
  else
    let len := leToNat (bytes.take 2)
    let rest := bytes.drop 2
    if hrest : rest.length < len + 8 then none
    else
      let payload := rest.take len
      let tsBytes := (rest.drop len).take 8
      let low := leToNat (tsBytes.take 4)
      let high := leToNat (tsBytes.drop 4)
      let remaining := (rest.drop len).drop 8
      match parseRawDump remaining with
      | none => none
      | some ps => some ((payload, low + high * 4294967296) :: ps)
termination_by bytes.length
decreasing_by
  simp only [List.length_drop]
  omega

end RawDump

/-! ## Helper lemmas -/

namespace OggWriter

theorem segLoop_sum : ∀ fuel r, r ≤ fuel → (segLoop fuel r).sum = r := by
  intro fuel
  induction fuel with
  | zero =>
      intro r hr
      interval_cases r
      rfl
  | succ f ih =>
      intro r hr
      match r with
      | 0 => rfl
      | s + 1 =>
          have hmin : 1 ≤ min (s + 1) 255 := by omega
          have hrec : s + 1 - min (s + 1) 255 ≤ f := by omega
          simp only [segLoop, List.sum_cons, ih _ hrec]
          omega

theorem computeSegments_sum (n : Nat) : (computeSegments n).sum = n := by
  unfold computeSegments
  split
  · simp_all
  · exact segLoop_sum n n (Nat.le_refl n)

theorem segLoop_mem_le : ∀ fuel r s, s ∈ segLoop fuel r → s ≤ 255 := by
  intro fuel
  induction fuel with
  | zero =>
      intro r s hs
      match r with
      | 0 => simp [segLoop] at hs
      | _ + 1 => simp [segLoop] at hs
  | succ f ih =>
      intro r s hs
      match r with
      | 0 => simp [segLoop] at hs
      | t + 1 =>
          simp only [segLoop, List.mem_cons] at hs
          rcases hs with h | h

          · omega
          · exact ih _ _ h

theorem slicesConcat_eq :
    ∀ (segs : List Nat) (packet : List Nat) (off : Nat),
      off + segs.sum = packet.length →
      slicesConcat packet segs off = packet.drop off := by
  intro segs
  induction segs with
  | nil =>
      intro packet off h
      simp only [List.sum_nil, Nat.add_zero] at h
      simp [slicesConcat, List.drop_of_length_le (Nat.le_of_eq h.symm)]
  | cons s rest ih =>
      intro packet off h
      simp only [List.sum_cons] at h
      have h1 : (packet.drop off).drop s = packet.drop (off + s) := by
        rw [List.drop_drop, Nat.add_comm]
      have h2 : slicesConcat packet rest (off + s) = packet.drop (off + s) :=
        ih packet (off + s) (by omega)
      calc slicesConcat packet (s :: rest) off
          = (packet.drop off).take s ++ slicesConcat packet rest (off + s) := rfl
        _ = (packet.drop off).take s ++ (packet.drop off).drop s := by
              rw [h2, ← h1]
        _ = packet.drop off := List.take_append_drop s (packet.drop off)

theorem slicesConcat_computeSegments (packet : List Nat) :
    slicesConcat packet (computeSegments packet.length) 0 = packet := by
  have h := slicesConcat_eq (computeSegments packet.length) packet 0
    (by rw [computeSegments_sum]; omega)
  simpa using h

@[simp] theorem u16LE_length (v : Nat) : (u16LE v).length = 2 := rfl

@[simp] theorem u32LE_length (v : Nat) : (u32LE v).length = 4 := rfl

@[simp] theorem i16LE_length (v : Int) : (i16LE v).length = 2 := rfl

@[simp] theorem oggPageHeaderZero_length
    (headerType gpLow gpHigh serial seq nsegs : Nat) :
    (oggPageHeaderZero headerType gpLow gpHigh serial seq nsegs).length = 27 := rfl

theorem leToNat_u16LE (v : Nat) (h : v < 65536) : leToNat (u16LE v) = v := by
  simp only [u16LE, leToNat, List.foldr]
  omega

theorem leToNat_u32LE (v : Nat) (h : v < 4294967296) : leToNat (u32LE v) = v := by
  simp only [u32LE, leToNat, List.foldr]
  omega

theorem patchChecksum_take_22
    (headerType gpLow gpHigh serial seq nsegs crc : Nat) :
    patchChecksum (oggPageHeaderZero headerType gpLow gpHigh serial seq nsegs) crc =
      (oggPageHeaderZero headerType gpLow gpHigh serial seq nsegs).take 22 ++
        u32LE crc ++ [nsegs] := by
  simp [patchChecksum, oggPageHeaderZero, u32LE, List.drop_append]

@[simp] theorem patchChecksum_length
    (headerType gpLow gpHigh serial seq nsegs crc : Nat) :
    (patchChecksum (oggPageHeaderZero headerType gpLow gpHigh serial seq nsegs)
      crc).length = 27 := by
  rw [patchChecksum_take_22]
  simp [oggPageHeaderZero, u32LE]

/-- A successful `writeOggPage` call returns the patched header followed
by the segment table followed by the packet bytes. -/
theorem writeOggPage_eq (packet : List Nat) (headerType granulePos serial seq : Nat)
    (page : List Nat)
    (h : writeOggPage packet headerType granulePos serial seq = some page) :
    page =
      patchChecksum
        (oggPageHeaderZero headerType (toInt32 granulePos).toNat
          (granulePos / 4294967296) serial seq
          (computeSegments packet.length).length)
        (calculateOggChecksum
          (oggPageHeaderZero headerType (toInt32 granulePos).toNat
            (granulePos / 4294967296) serial seq
            (computeSegments packet.length).length)
          (computeSegments packet.length) packet) ++
      computeSegments packet.length ++ packet := by
  simp only [writeOggPage] at h
  split at h
  · rw [Option.some_inj] at h
    rw [← h, slicesConcat_computeSegments]
  · exact absurd h (by simp)

end OggWriter

namespace OggWriter

/-- The samples-per-packet value the container writer derives from a
packet: the TOC parser applied to the first byte. -/
def sppOf (sampleRate : Nat) (packet : List Nat) : ℚ :=
  (parseOpusTOC sampleRate (packet.headD 0)).samplesPerPacket

/-- Running prefix sums starting above `g`: the granule values a
cumulative counter passes through. -/
def scanSums (g : ℚ) : List ℚ → List ℚ
  | [] => []
  | a :: as => (g + a) :: scanSums (g + a) as

theorem sppOf_nonneg (sampleRate : Nat) (packet : List Nat) :
    0 ≤ sppOf sampleRate packet := by
  have h : sppOf sampleRate packet =
      ((parseOpusTOC sampleRate (packet.headD 0)).durationMs : ℚ) *
        (sampleRate : ℚ) / 1000 *
        ((parseOpusTOC sampleRate (packet.headD 0)).frameCount : ℚ) := rfl
  rw [h]
  positivity

theorem writeOpusPacket_nonempty (st : WriterState) (packet : List Nat)
    (hp : packet ≠ []) :
    writeOpusPacket st packet =
      ({ st with
          granulePosition := st.granulePosition + sppOf st.sampleRate packet
          packetsWritten := st.packetsWritten + 1
          pageSequenceNumber := st.pageSequenceNumber + 1
          bytesWritten := st.bytesWritten +
            (27 + (computeSegments packet.length).length + packet.length) },
        [st.granulePosition + sppOf st.sampleRate packet]) := by
  have hlen : packet.length ≠ 0 := by
    simpa [List.length_eq_zero] using hp
  simp [writeOpusPacket, hlen, sppOf]

theorem writePackets_stamps :
    ∀ (ps : List (List Nat)) (st : WriterState), (∀ p ∈ ps, p ≠ []) →
      (writePackets st ps).2 =
        scanSums st.granulePosition (ps.map (sppOf st.sampleRate)) := by
  intro ps
  induction ps with
  | nil => intro st _; rfl
  | cons p rest ih =>
      intro st h
      have hp : p ≠ [] := h p (List.mem_cons_self p rest)
      have hrest : ∀ q ∈ rest, q ≠ [] := fun q hq => h q (List.mem_cons_of_mem p hq)
      simp only [writePackets, writeOpusPacket_nonempty st p hp,
        List.map_cons, scanSums]
      rw [ih _ hrest]
      simp

theorem scanSums_getD :
    ∀ (l : List ℚ) (g : ℚ) (k : Nat), k < l.length →
      (scanSums g l).getD k 0 = g + (l.take (k + 1)).sum := by
  intro l
  induction l with
  | nil => intro g k h; simp at h
  | cons a as ih =>
      intro g k h
      cases k with
      | zero => simp [scanSums]
      | succ k' =>
          have h' : k' < as.length := by simpa using h
          simp only [scanSums, List.getD_cons_succ, ih (g + a) k' h',
            List.take_succ_cons, List.sum_cons]
          ring

theorem take_sum_mono (l : List ℚ) (h0 : ∀ x ∈ l, 0 ≤ x) (j k : Nat)
    (hjk : j ≤ k) : (l.take j).sum ≤ (l.take k).sum := by
  have hsplit : l.take k = l.take j ++ (l.drop j).take (k - j) := by
    rw [← List.take_add]
    congr 1
    omega
  rw [hsplit, List.sum_append]
  have hnn : 0 ≤ ((l.drop j).take (k - j)).sum := by
    apply List.sum_nonneg
    intro x hx
    exact h0 x (List.mem_of_mem_drop (List.mem_of_mem_take hx))
  linarith

end OggWriter

namespace RawDump

open OggWriter (u16LE u32LE leToNat)

theorem handleFrame_valid (file packet : List Nat) (ts : Nat)
    (h1 : 0 < packet.length) (h2 : packet.length ≤ 65535)
    (h3 : ts < 18446744073709551616) :
    handleFrame file packet ts = file ++ buildFrameBuffer packet ts := by
  have g1 : ¬(packet.length = 0) := by omega
  have g2 : ¬(65535 < packet.length) := by omega
  have g3 : ¬(4294967295 < ts / 4294967296) := by omega
  simp [handleFrame, g1, g2, g3]

theorem foldl_handleFrame :
    ∀ (pairs : List (List Nat × Nat)) (file : List Nat),
      (∀ pr ∈ pairs, 0 < pr.1.length ∧ pr.1.length ≤ 65535 ∧
        pr.2 < 18446744073709551616) →
      pairs.foldl (fun f pr => handleFrame f pr.1 pr.2) file =
        file ++ (pairs.map (fun pr => buildFrameBuffer pr.1 pr.2)).flatten := by
  intro pairs
  induction pairs with
  | nil => intro file _; simp
  | cons pr rest ih =>
      intro file h
      have hpr := h pr (List.mem_cons_self pr rest)
      have hrest := fun q hq => h q (List.mem_cons_of_mem pr hq)
      simp only [List.foldl_cons, List.map_cons, List.flatten_cons]
      rw [handleFrame_valid file pr.1 pr.2 hpr.1 hpr.2.1 hpr.2.2, ih _ hrest,
        List.append_assoc]

theorem rawDumpFile_flatten (pairs : List (List Nat × Nat))
    (h : ∀ pr ∈ pairs, 0 < pr.1.length ∧ pr.1.length ≤ 65535 ∧
      pr.2 < 18446744073709551616) :
    rawDumpFile pairs =
      (pairs.map (fun pr => buildFrameBuffer pr.1 pr.2)).flatten := by
  rw [rawDumpFile, foldl_handleFrame pairs [] h, List.nil_append]

theorem parseRawDump_cons (packet : List Nat) (ts : Nat) (tail : List Nat)
    (ps : List (List Nat × Nat))
    (h1 : 0 < packet.length) (h2 : packet.length ≤ 65535)
    (h3 : ts < 18446744073709551616)
    (hrec : parseRawDump tail = some ps) :
    parseRawDump (buildFrameBuffer packet ts ++ tail) =
      some ((packet, ts) :: ps) := by
  have hne : buildFrameBuffer packet ts ++ tail ≠ [] := by
    simp [buildFrameBuffer, u16LE]
  have hlentot : (buildFrameBuffer packet ts ++ tail).length =
      10 + packet.length + tail.length := by
    simp [buildFrameBuffer, u16LE, u32LE]
    omega
  have hlen : ¬((buildFrameBuffer packet ts ++ tail).length < 10) := by
    rw [hlentot]; omega
  have htake2 : (buildFrameBuffer packet ts ++ tail).take 2 =
      u16LE packet.length := by
    simp only [buildFrameBuffer, List.append_assoc]
    exact List.take_left' (by simp)
  have hlen2 : leToNat ((buildFrameBuffer packet ts ++ tail).take 2) =
      packet.length := by
    rw [htake2]
    exact OggWriter.leToNat_u16LE _ (by omega)
  have hdrop2 : (buildFrameBuffer packet ts ++ tail).drop 2 =
      packet ++ ((u32LE (ts % 4294967296) ++ u32LE (ts / 4294967296)) ++ tail) := by
    simp only [buildFrameBuffer, List.append_assoc]
    rw [List.drop_left' (by simp)]
  rw [parseRawDump, dif_neg hne, dif_neg hlen]
  simp only [hlen2, hdrop2]
  rw [dif_neg (by simp; omega)]
  rw [List.take_left, List.drop_left]
  rw [List.take_left' (by simp), List.take_left' (by simp),
    List.drop_left' (by simp), List.drop_left' (by simp)]
  rw [OggWriter.leToNat_u32LE _ (by omega), OggWriter.leToNat_u32LE _ (by omega)]
  rw [hrec]
  have hts : ts % 4294967296 + ts / 4294967296 * 4294967296 = ts := by omega
  exact congrArg some (congrArg (fun t => (packet, t) :: ps) hts)

theorem parseRawDump_flatten :
    ∀ pairs : List (List Nat × Nat),
      (∀ pr ∈ pairs, 0 < pr.1.length ∧ pr.1.length ≤ 65535 ∧
        pr.2 < 18446744073709551616) →
      parseRawDump ((pairs.map (fun pr => buildFrameBuffer pr.1 pr.2)).flatten) =
        some pairs := by
  intro pairs
  induction pairs with
  | nil =>
      intro _
      rw [parseRawDump]
      simp
  | cons pr rest ih =>
      intro h
      have hpr := h pr (List.mem_cons_self pr rest)
      have hrest := fun q hq => h q (List.mem_cons_of_mem pr hq)
      simp only [List.map_cons, List.flatten_cons]
      have := parseRawDump_cons pr.1 pr.2
        ((rest.map (fun pr => buildFrameBuffer pr.1 pr.2)).flatten) rest
        hpr.1 hpr.2.1 hpr.2.2 (ih hrest)
      simpa using this

end RawDump

/-! ## Claim theorems -/

open OggWriter RawDump

/-- Claim C1: the spec requires that a packet whose length is an exact
positive multiple of 255 gets a terminating zero lacing value — a
255-byte packet must yield the segment table [255, 0] and a 510-byte
packet must yield [255, 255, 0].  The segmentation loop of
`writeOggPage` stops as soon as `remaining` reaches zero and never
appends the zero segment, so the code emits [255] and [255, 255]
instead: the code contradicts the Ogg lacing rule the spec states. -/
theorem computeSegments_at_255_and_510 :
    computeSegments 255 = [255] ∧ computeSegments 510 = [255, 255] := by
  constructor <;> decide

/-- Claim C7: the spec requires that page emission succeeds for every
granule position in the u64 range, with bytes 6..13 of the header
holding the 64-bit little-endian encoding.  At granule position
2147483647 the emitted page indeed carries the little-endian encoding,
but at 2147483648 (low half has the high bit set) the source computes
`granulePos & 0xFFFFFFFF`, a JavaScript int32 coercion yielding the
negative number -2147483648, and `Buffer.writeUInt32LE` throws a range
error, so no page is emitted. -/
theorem writeOggPage_granule_high_bit_throws :
    (writeOggPage [1] 0 2147483647 0 0).map (fun p => (p.drop 6).take 8) =
        some [255, 255, 255, 127, 0, 0, 0, 0] ∧
      writeOggPage [1] 0 2147483648 0 0 = none := by
  constructor <;> decide

/-- Claim C4: on every emitted page the four bytes patched in at offset
22 of the header are the little-endian encoding of the CRC-32 checksum
of `calculateOggChecksum` — running CRC starting at 0, updated through
the reflected 0x04C11DB7 table — computed over the 27-byte header with
its checksum field zeroed, then the segment table, then the packet
payload, in that order. -/
theorem writeOggPage_checksum_patch (packet : List Nat)
    (headerType granulePos serial seq : Nat) (page : List Nat)
    (h : writeOggPage packet headerType granulePos serial seq = some page) :
    (page.drop 22).take 4 =
      u32LE (calculateOggChecksum
        (oggPageHeaderZero headerType (toInt32 granulePos).toNat
          (granulePos / 4294967296) serial seq
          (computeSegments packet.length).length)
        (computeSegments packet.length) packet) := by
  rw [writeOggPage_eq packet headerType granulePos serial seq page h]
  simp only [patchChecksum, List.append_assoc]
  have hlen22 : ((oggPageHeaderZero headerType (toInt32 granulePos).toNat
      (granulePos / 4294967296) serial seq
      (computeSegments packet.length).length).take 22).length = 22 := by
    simp [List.length_take]
  rw [List.drop_left' hlen22, List.take_left' (u32LE_length _)]

theorem writeOggPage_checksum_patch_witness :
    ∃ page, writeOggPage [1] 0 0 0 0 = some page ∧
      (page.drop 22).take 4 =
        u32LE (calculateOggChecksum
          (oggPageHeaderZero 0 (toInt32 0).toNat (0 / 4294967296) 0 0
            (computeSegments ([1] : List Nat).length).length)
          (computeSegments ([1] : List Nat).length) [1]) := by
  obtain ⟨page, hp⟩ : ∃ p, writeOggPage [1] 0 0 0 0 = some p := ⟨_, rfl⟩
  exact ⟨page, hp, writeOggPage_checksum_patch [1] 0 0 0 0 page hp⟩

/-- Claim C8: a packet whose length is 0 or greater than 65535 is
rejected locally by the raw-dump data handler: nothing at all is
appended to the file for that call and no error propagates. -/
theorem handleFrame_rejects_invalid_length (file packet : List Nat)
    (timestamp : Nat) (h : packet.length = 0 ∨ 65535 < packet.length) :
    handleFrame file packet timestamp = file := by
  rcases h with h | h
  · simp [handleFrame, h]
  · have h0 : ¬(packet.length = 0) := by omega
    simp [handleFrame, h0, h]

theorem handleFrame_rejects_invalid_length_witness :
    ((List.replicate 70000 (0 : Nat)).length = 0 ∨
      65535 < (List.replicate 70000 (0 : Nat)).length) ∧
    handleFrame [1, 2] (List.replicate 70000 (0 : Nat)) 1234 = [1, 2] :=
  ⟨Or.inr (by rw [List.length_replicate]; norm_num),
    handleFrame_rejects_invalid_length [1, 2] _ 1234
      (Or.inr (by rw [List.length_replicate]; norm_num))⟩

/-- Claim C6: after `init()`, the first emitted page carries exactly
the 19-byte OpusHead packet — magic "OpusHead", version 1, channel
count, pre-skip u16 LE, input sample rate u32 LE, output gain i16 LE,
channel mapping 0 — framed as a single-segment page with header type
0x02 and granule position 0; the second page is an OpusTags packet with
header type 0x00 whose encoded vendor string length and comment count
equal the constructor inputs. -/
theorem init_emits_opusHead_opusTags
    (channels preSkip sampleRate : Nat) (outputGain : Int)
    (vendorString : List Nat) (comments : List (List Nat)) (serial : Nat)
    (hserial : serial ≤ 4294967295)
    (htags : (computeSegments
      (createOpusTags vendorString comments).length).length ≤ 255) :
    ∃ p1 p2,
      init channels preSkip sampleRate outputGain vendorString comments
          serial = some (p1, p2) ∧
      createOpusHead channels preSkip sampleRate outputGain =
        [79, 112, 117, 115, 72, 101, 97, 100] ++ [1] ++ [channels] ++
          u16LE preSkip ++ u32LE sampleRate ++ i16LE outputGain ++ [0] ∧
      (createOpusHead channels preSkip sampleRate outputGain).length = 19 ∧
      p1.length = 47 ∧
      p1.take 6 = [79, 103, 103, 83, 0, 2] ∧
      (p1.drop 6).take 8 = [0, 0, 0, 0, 0, 0, 0, 0] ∧
      (p1.drop 26).take 1 = [1] ∧
      p1.drop 27 = [19] ++ createOpusHead channels preSkip sampleRate outputGain ∧
      p2.take 6 = [79, 103, 103, 83, 0, 0] ∧
      p2.drop 27 =
        computeSegments (createOpusTags vendorString comments).length ++
          createOpusTags vendorString comments ∧
      (createOpusTags vendorString comments).take 8 =
        [79, 112, 117, 115, 84, 97, 103, 115] ∧
      ((createOpusTags vendorString comments).drop 8).take 4 =
        u32LE vendorString.length ∧
      ((createOpusTags vendorString comments).drop
        (12 + vendorString.length)).take 4 = u32LE comments.length := by
  have hheadlen : (createOpusHead channels preSkip sampleRate outputGain).length
      = 19 := rfl
  obtain ⟨p1, hp1⟩ : ∃ p,
      writeOggPage (createOpusHead channels preSkip sampleRate outputGain)
        2 0 serial 0 = some p := by
    simp only [writeOggPage]
    rw [if_pos ⟨by decide, by decide, hserial, by decide, by decide,
      by rw [hheadlen]; decide⟩]
    exact ⟨_, rfl⟩
  obtain ⟨p2, hp2⟩ : ∃ p,
      writeOggPage (createOpusTags vendorString comments) 0 0 serial 1 =
        some p := by
    simp only [writeOggPage]
    rw [if_pos ⟨by decide, by decide, hserial, by decide, by decide, htags⟩]
    exact ⟨_, rfl⟩
  have h1eq := writeOggPage_eq _ 2 0 serial 0 p1 hp1
  have h2eq := writeOggPage_eq _ 0 0 serial 1 p2 hp2
  refine ⟨p1, p2, ?_, rfl, hheadlen, ?_, ?_, ?_, ?_, ?_, ?_, ?_, rfl, rfl, ?_⟩
  · simp only [init, hp1, hp2]
  · rw [h1eq]
    simp [patchChecksum_length]
    rfl
  · rw [h1eq]; rfl
  · rw [h1eq]; rfl
  · rw [h1eq]; rfl
  · rw [h1eq]; rfl
  · rw [h2eq]; rfl
  · rw [h2eq, List.append_assoc]
    exact List.drop_left' (patchChecksum_length _ _ _ _ _ _ _)
  · have hsplit : createOpusTags vendorString comments =
        ([79, 112, 117, 115, 84, 97, 103, 115] ++
          u32LE vendorString.length ++ vendorString) ++
        (u32LE comments.length ++
          (comments.map (fun c => u32LE c.length ++ c)).flatten) := by
      simp [createOpusTags]
    rw [hsplit, List.drop_left' (by simp; omega),
      List.take_left' (u32LE_length _)]

theorem init_emits_opusHead_opusTags_witness :
    ((0 : Nat) ≤ 4294967295 ∧
     (computeSegments
       (createOpusTags ([] : List Nat) ([] : List (List Nat))).length).length
         ≤ 255) ∧
    (∃ p1 p2,
      init 2 0 48000 0 [] [] 0 = some (p1, p2) ∧
      createOpusHead 2 0 48000 0 =
        [79, 112, 117, 115, 72, 101, 97, 100] ++ [1] ++ [2] ++
          u16LE 0 ++ u32LE 48000 ++ i16LE 0 ++ [0] ∧
      (createOpusHead 2 0 48000 0).length = 19 ∧
      p1.length = 47 ∧
      p1.take 6 = [79, 103, 103, 83, 0, 2] ∧
      (p1.drop 6).take 8 = [0, 0, 0, 0, 0, 0, 0, 0] ∧
      (p1.drop 26).take 1 = [1] ∧
      p1.drop 27 = [19] ++ createOpusHead 2 0 48000 0 ∧
      p2.take 6 = [79, 103, 103, 83, 0, 0] ∧
      p2.drop 27 =
        computeSegments (createOpusTags [] []).length ++
          createOpusTags [] [] ∧
      (createOpusTags ([] : List Nat) ([] : List (List Nat))).take 8 =
        [79, 112, 117, 115, 84, 97, 103, 115] ∧
      ((createOpusTags ([] : List Nat) ([] : List (List Nat))).drop 8).take 4 =
        u32LE ([] : List Nat).length ∧
      ((createOpusTags ([] : List Nat) ([] : List (List Nat))).drop
        (12 + ([] : List Nat).length)).take 4 =
          u32LE ([] : List (List Nat)).length) :=
  ⟨⟨by decide, by decide⟩,
    init_emits_opusHead_opusTags 2 0 48000 0 [] [] 0 (by decide) (by decide)⟩

/-- Claim C5: writing a sequence of valid (packet, timestamp) pairs
through the raw-dump data handler produces a file that is exactly the
in-order concatenation of one record per pair, and parsing the file
back sequentially — reconstructing each timestamp as
low + high * 2^32 — reproduces the original sequence of pairs. -/
theorem rawDump_roundtrip (pairs : List (List Nat × Nat))
    (hvalid : ∀ pr ∈ pairs, 0 < pr.1.length ∧ pr.1.length ≤ 65535 ∧
      pr.2 < 18446744073709551616) :
    rawDumpFile pairs =
      (pairs.map (fun pr => buildFrameBuffer pr.1 pr.2)).flatten ∧
    parseRawDump (rawDumpFile pairs) = some pairs := by
  have hfile := RawDump.rawDumpFile_flatten pairs hvalid
  exact ⟨hfile, by rw [hfile]; exact RawDump.parseRawDump_flatten pairs hvalid⟩

theorem rawDump_roundtrip_witness :
    (∀ pr ∈ ([([7], 4294967299)] : List (List Nat × Nat)),
      0 < pr.1.length ∧ pr.1.length ≤ 65535 ∧ pr.2 < 18446744073709551616) ∧
    (rawDumpFile [([7], 4294967299)] =
      (([([7], 4294967299)] : List (List Nat × Nat)).map
        (fun pr => buildFrameBuffer pr.1 pr.2)).flatten ∧
     parseRawDump (rawDumpFile [([7], 4294967299)]) =
       some [([7], 4294967299)]) :=
  ⟨by decide, rawDump_roundtrip [([7], 4294967299)] (by decide)⟩

/-- Claim C9: calling `writeOpusPacket` with a zero-length buffer is a
no-op: no page is emitted, no error is thrown, and none of the writer
counters change. -/
theorem writeOpusPacket_empty_noop (st : WriterState) :
    writeOpusPacket st [] = (st, []) := by
  simp [writeOpusPacket]

/-- Claim C3: for every TOC byte 0..255 and sample rate, `parseOpusTOC`
returns config as the low two bits, durationMs from the table
[10, 20, 40, 60] indexed by config % 4, frameCount 1 for frame-count
codes 0 and 3, 2 for codes 1 and 2, and code - 3 for codes 4..15,
samplesPerFrame as durationMs * sampleRate / 1000, and samplesPerPacket
as samplesPerFrame * frameCount. -/
theorem parseOpusTOC_field_equations (sampleRate tocByte : Nat)
    (hb : tocByte < 256) :
    (parseOpusTOC sampleRate tocByte).config = tocByte &&& 0x03 ∧
    (parseOpusTOC sampleRate tocByte).durationMs =
      [10, 20, 40, 60].getD ((parseOpusTOC sampleRate tocByte).config % 4) 0 ∧
    (parseOpusTOC sampleRate tocByte).frameCount =
      (if (tocByte >>> 4) &&& 0x0F = 0 ∨ (tocByte >>> 4) &&& 0x0F = 3 then 1
       else if (tocByte >>> 4) &&& 0x0F = 1 ∨ (tocByte >>> 4) &&& 0x0F = 2 then 2
       else ((tocByte >>> 4) &&& 0x0F) - 3) ∧
    (parseOpusTOC sampleRate tocByte).samplesPerFrame =
      ((parseOpusTOC sampleRate tocByte).durationMs : ℚ) * (sampleRate : ℚ) / 1000 ∧
    (parseOpusTOC sampleRate tocByte).samplesPerPacket =
      (parseOpusTOC sampleRate tocByte).samplesPerFrame *
        ((parseOpusTOC sampleRate tocByte).frameCount : ℚ) := by
  refine ⟨rfl, rfl, ?_, rfl, rfl⟩
  simp only [parseOpusTOC]
  split_ifs <;> omega

theorem parseOpusTOC_field_equations_witness :
    (120 : Nat) < 256 ∧
    ((parseOpusTOC 48000 120).config = 120 &&& 0x03 ∧
     (parseOpusTOC 48000 120).durationMs =
       [10, 20, 40, 60].getD ((parseOpusTOC 48000 120).config % 4) 0 ∧
     (parseOpusTOC 48000 120).frameCount =
       (if (120 >>> 4) &&& 0x0F = 0 ∨ (120 >>> 4) &&& 0x0F = 3 then 1
        else if (120 >>> 4) &&& 0x0F = 1 ∨ (120 >>> 4) &&& 0x0F = 2 then 2
        else ((120 >>> 4) &&& 0x0F) - 3) ∧
     (parseOpusTOC 48000 120).samplesPerFrame =
       ((parseOpusTOC 48000 120).durationMs : ℚ) * ((48000 : Nat) : ℚ) / 1000 ∧
     (parseOpusTOC 48000 120).samplesPerPacket =
       (parseOpusTOC 48000 120).samplesPerFrame *
         ((parseOpusTOC 48000 120).frameCount : ℚ)) :=
  ⟨by decide, parseOpusTOC_field_equations 48000 120 (by decide)⟩

/-- Claim C10: `parseOpusTOC` is total: for every byte and every
positive sample rate, durationMs lies in {10, 20, 40, 60}, the frame
count is at least 1 and samplesPerPacket is positive, so every
non-empty packet accepted by `writeOpusPacket` strictly increases the
granule position. -/
theorem parseOpusTOC_total_and_positive (sampleRate : Nat)
    (hr : 0 < sampleRate) :
    (∀ tocByte : Nat,
      ((parseOpusTOC sampleRate tocByte).durationMs = 10 ∨
       (parseOpusTOC sampleRate tocByte).durationMs = 20 ∨
       (parseOpusTOC sampleRate tocByte).durationMs = 40 ∨
       (parseOpusTOC sampleRate tocByte).durationMs = 60) ∧
      1 ≤ (parseOpusTOC sampleRate tocByte).frameCount ∧
      0 < (parseOpusTOC sampleRate tocByte).samplesPerPacket) ∧
    (∀ (st : WriterState) (packet : List Nat), st.sampleRate = sampleRate →
      packet ≠ [] →
      st.granulePosition < ((writeOpusPacket st packet).1).granulePosition) := by
  have hdur : ∀ tocByte : Nat,
      (parseOpusTOC sampleRate tocByte).durationMs = 10 ∨
      (parseOpusTOC sampleRate tocByte).durationMs = 20 ∨
      (parseOpusTOC sampleRate tocByte).durationMs = 40 ∨
      (parseOpusTOC sampleRate tocByte).durationMs = 60 := by
    intro b
    have h4 : (b &&& 3) % 4 < 4 := Nat.mod_lt _ (by norm_num)
    have hcases : ∀ m : Nat, m < 4 →
        ([10, 20, 40, 60].getD m 0 = 10 ∨ [10, 20, 40, 60].getD m 0 = 20 ∨
         [10, 20, 40, 60].getD m 0 = 40 ∨ [10, 20, 40, 60].getD m 0 = 60) := by
      decide
    exact hcases _ h4
  have hfc : ∀ tocByte : Nat, 1 ≤ (parseOpusTOC sampleRate tocByte).frameCount := by
    intro b
    simp only [parseOpusTOC]
    have h15 : (b >>> 4) &&& 15 ≤ 15 := Nat.and_le_right
    split_ifs <;> omega
  have hspp : ∀ tocByte : Nat,
      0 < (parseOpusTOC sampleRate tocByte).samplesPerPacket := by
    intro b
    have hd : 0 < ((parseOpusTOC sampleRate b).durationMs : ℚ) := by
      rcases hdur b with h | h | h | h <;> rw [h] <;> norm_num
    have hr' : 0 < ((sampleRate : Nat) : ℚ) := by exact_mod_cast hr
    have hf : 0 < (((parseOpusTOC sampleRate b).frameCount : Nat) : ℚ) := by
      have := hfc b
      exact_mod_cast Nat.lt_of_lt_of_le Nat.zero_lt_one this
    have hframe : (parseOpusTOC sampleRate b).samplesPerPacket =
        ((parseOpusTOC sampleRate b).durationMs : ℚ) * (sampleRate : ℚ) / 1000 *
          ((parseOpusTOC sampleRate b).frameCount : ℚ) := rfl
    rw [hframe]
    positivity
  refine ⟨fun b => ⟨hdur b, hfc b, hspp b⟩, ?_⟩
  intro st packet hsr hne
  have hlen : packet.length ≠ 0 := by
    simpa [List.length_eq_zero] using hne
  simp only [writeOpusPacket, hlen, if_false]
  subst hsr
  linarith [hspp (packet.headD 0)]

/-- Claim C2: starting from the post-init state (granule position 0),
feeding any sequence of non-empty packets to `writeOpusPacket` stamps
on the k-th emitted data page the sum of samplesPerPacket, as computed
by the TOC parser, of packets 1..k, and the stamped values never
decrease along the page sequence. -/
theorem granulePosition_prefix_sum_monotone
    (st : WriterState) (ps : List (List Nat)) (j k : Nat)
    (hvalid : ∀ p ∈ ps, p ≠ []) (hg : st.granulePosition = 0)
    (hk : k < ps.length) (hjk : j ≤ k) :
    (writePackets st ps).2.getD k 0 =
      ((ps.take (k + 1)).map (sppOf st.sampleRate)).sum ∧
    (writePackets st ps).2.getD j 0 ≤ (writePackets st ps).2.getD k 0 := by
  have hmap : ∀ m : Nat, m < ps.length →
      (writePackets st ps).2.getD m 0 =
        ((ps.take (m + 1)).map (sppOf st.sampleRate)).sum := by
    intro m hm
    rw [writePackets_stamps ps st hvalid,
      scanSums_getD _ _ m (by simpa using hm), hg, List.map_take]
    ring
  refine ⟨hmap k hk, ?_⟩
  rw [hmap k hk, hmap j (Nat.lt_of_le_of_lt hjk hk), List.map_take,
    List.map_take]
  exact take_sum_mono (ps.map (sppOf st.sampleRate))
    (by
      intro x hx
      obtain ⟨p, _, hpx⟩ := List.mem_map.mp hx
      rw [← hpx]
      exact sppOf_nonneg st.sampleRate p)
    (j + 1) (k + 1) (by omega)

theorem granulePosition_prefix_sum_monotone_witness :
    ((∀ p ∈ [[120], [121]], p ≠ ([] : List Nat)) ∧
     (WriterState.mk 48000 2 0 0 0).granulePosition = 0 ∧
     1 < ([[120], [121]] : List (List Nat)).length ∧ 0 ≤ 1) ∧
    ((writePackets (WriterState.mk 48000 2 0 0 0) [[120], [121]]).2.getD 1 0 =
      ((([[120], [121]] : List (List Nat)).take 2).map
        (sppOf (WriterState.mk 48000 2 0 0 0).sampleRate)).sum ∧
     (writePackets (WriterState.mk 48000 2 0 0 0) [[120], [121]]).2.getD 0 0 ≤
      (writePackets (WriterState.mk 48000 2 0 0 0) [[120], [121]]).2.getD 1 0) :=
  ⟨⟨by decide, rfl, by decide, by decide⟩,
    granulePosition_prefix_sum_monotone (WriterState.mk 48000 2 0 0 0)
      [[120], [121]] 0 1 (by decide) rfl (by decide) (by decide)⟩

theorem parseOpusTOC_total_and_positive_witness :
    (0 : Nat) < 48000 ∧
    ((∀ tocByte : Nat,
      ((parseOpusTOC 48000 tocByte).durationMs = 10 ∨
       (parseOpusTOC 48000 tocByte).durationMs = 20 ∨
       (parseOpusTOC 48000 tocByte).durationMs = 40 ∨
       (parseOpusTOC 48000 tocByte).durationMs = 60) ∧
      1 ≤ (parseOpusTOC 48000 tocByte).frameCount ∧
      0 < (parseOpusTOC 48000 tocByte).samplesPerPacket) ∧
    (∀ (st : WriterState) (packet : List Nat), st.sampleRate = 48000 →
      packet ≠ [] →
      st.granulePosition < ((writeOpusPacket st packet).1).granulePosition)) :=
  ⟨by decide, parseOpusTOC_total_and_positive 48000 (by decide)⟩
